import Mathlib

/-!
Verification of `streamlit_app.py` (a RAG diet-recommendation chatbot).

The file embeds the program's core logic in Lean:
the web-search adapter (`search_web` / `run_with_source`), the document
loading loop (`load_pdf_files`), the chunking configuration, session
memory (`get_session_history` plus `ChatMessageHistory.add_message`), and
the per-turn orchestration in `main` (history folding, agent invocation,
history appends).  External services (SerpAPI, OpenAI, the LangChain
agent executor) are modelled as explicit function parameters returning
`Except`, mirroring that the Python code lets their exceptions propagate
wherever it installs no handler.
-/

set_option autoImplicit false

namespace ChatbotApp

/-- One organic search result as consumed by `run_with_source`
(`streamlit_app.py:27-31`): each of the four fields is read with
`r.get(...)`, so each may be absent (`None`). -/
structure SearchResult where
  title : Option String
  link : Option String
  source : Option String
  snippet : Option String
  deriving DecidableEq, Repr

/-- Python f-string interpolation of a possibly-`None` value:
`f"\x7bx\x7d"` renders `None` as the literal text `"None"`. -/
def fstr (o : Option String) : String :=
  o.getD "None"

/-- Python truthiness of an optional string, as used by `if link:` at
`streamlit_app.py:32`: `None` and the empty string are falsy. -/
def truthy (o : Option String) : Bool :=
  match o with
  | none => false
  | some s => !s.isEmpty

/-- The per-result formatting of `run_with_source`
(`streamlit_app.py:32-35`): with a truthy link the line is
`- [title](link) (source)\n  snippet`; otherwise
`- title (출처: source)\n  snippet`. -/
def format_result (r : SearchResult) : String :=
  if truthy r.link then
    "- [" ++ fstr r.title ++ "](" ++ fstr r.link ++ ") (" ++ fstr r.source ++ ")\n  " ++ fstr r.snippet
  else
    "- " ++ fstr r.title ++ " (출처: " ++ fstr r.source ++ ")\n  " ++ fstr r.snippet

/-- The fixed sentinel returned when there are no organic results
(`streamlit_app.py:36`). -/
def no_results_sentinel : String := "검색 결과가 없습니다."

/-- `run_with_source` (`streamlit_app.py:23-36`) after the provider call:
format the first five organic results and join with newlines, or return
the sentinel when the list is empty. -/
def run_with_source (organic : List SearchResult) : String :=
  let formatted := (organic.take 5).map format_result
  if formatted.isEmpty then no_results_sentinel
  else String.intercalate "\n" formatted

/-- Substring containment on strings, via infix of the character lists. -/
def strContains (s t : String) : Prop :=
  t.data <:+: s.data

theorem strContains_of_eq (s a t b : String) (h : s = a ++ t ++ b) :
    strContains s t := by
  subst h
  exact ⟨a.data, b.data, by simp⟩

/-- Errors of the external search provider (SerpAPI failure or missing
credentials), named `SearchError` in the design. -/
inductive SearchError where
  | search_error
  deriving DecidableEq, Repr

/-- `run_with_source` with the fallible provider call made explicit
(`streamlit_app.py:24-25`): `search.results(query)` may raise, and the
adapter installs no handler, so a provider error propagates unchanged. -/
def run_with_source_fallible
    (provider : String → Except SearchError (List SearchResult))
    (query : String) : Except SearchError String :=
  match provider query with
  | .error e => .error e
  | .ok organic => .ok (run_with_source organic)

/-- A chat message as stored by the program: plain string role
(`"user"` / `"assistant"`) and content (`streamlit_app.py:168-172`). -/
structure Message where
  role : String
  content : String
  deriving DecidableEq, Repr

/-- The session store `st.session_state.session_history`: a mapping from
session id to ordered message history (`streamlit_app.py:96-97`),
modelled as an association list with unique keys. -/
abbrev Store : Type := List (String × List Message)

/-- The history currently recorded for a session id, `none` when the id
has never been seen. -/
def hist_of (st : Store) (id : String) : Option (List Message) :=
  (List.find? (fun p => p.1 == id) st).map (fun p => p.2)

/-- `get_session_history` (`streamlit_app.py:75-78`): create the entry
with an empty history when the id is unseen, then return the store and
the id's history.  The Python function mutates the dict; here the
mutation is the returned store. -/
def get_session_history (st : Store) (id : String) : Store × List Message :=
  match List.find? (fun p => p.1 == id) st with
  | some p => (st, p.2)
  | none => (st ++ [(id, [])], [])

/-- `ChatMessageHistory.add_message` through the object returned by
`get_session_history` (`streamlit_app.py:171-172`): append one message
to the identified session's history. -/
def add_message (st : Store) (id : String) (m : Message) : Store :=
  st.map (fun p => if p.1 == id then (p.1, p.2 ++ [m]) else p)

theorem hist_of_nil (id : String) : hist_of [] id = none := rfl

theorem hist_of_get_session_history (st : Store) (id : String) :
    hist_of (get_session_history st id).1 id = some (get_session_history st id).2 := by
  unfold get_session_history
  induction st with
  | nil => simp [hist_of]
  | cons p st ih =>
    by_cases h : p.1 == id
    · simp [hist_of, List.find?, h]
    · simp only [List.find?, h] at ih ⊢
      cases hf : List.find? (fun p => p.1 == id) st with
      | some q => simp [hist_of, List.find?, h, hf]
      | none => simp [hist_of, List.find?, h, hf]

theorem get_session_history_snd (st : Store) (id : String) :
    (get_session_history st id).2 = (hist_of st id).getD [] := by
  unfold get_session_history hist_of
  cases List.find? (fun p => p.1 == id) st <;> simp

theorem hist_of_add_message (st : Store) (id : String) (m : Message) :
    hist_of (add_message st id m) id = (hist_of st id).map (fun h => h ++ [m]) := by
  induction st with
  | nil => simp [hist_of, add_message]
  | cons p st ih =>
    by_cases h : p.1 == id
    · simp [hist_of, add_message, List.find?, h]
    · simpa [hist_of, add_message, List.find?, h] using ih

theorem hist_of_add_message_ne (st : Store) (id id' : String) (m : Message)
    (h : id' ≠ id) :
    hist_of (add_message st id m) id' = hist_of st id' := by
  induction st with
  | nil => simp [hist_of, add_message]
  | cons p st ih =>
    by_cases hp : p.1 == id
    · have hpid : p.1 = id := by simpa using hp
      have hne : (p.1 == id') = false := by
        rw [hpid]
        exact beq_eq_false_iff_ne.mpr (Ne.symm h)
      simp [hist_of, add_message, List.find?, hp, hne] at ih ⊢
      simpa [hist_of] using ih
    · by_cases hp' : p.1 == id'
      · simp [hist_of, add_message, List.find?, hp, hp']
      · simp [hist_of, add_message, List.find?, hp, hp'] at ih ⊢
        simpa [hist_of] using ih

theorem hist_of_get_session_history_ne (st : Store) (id id' : String)
    (h : id' ≠ id) :
    hist_of (get_session_history st id).1 id' = hist_of st id' := by
  unfold get_session_history
  cases hf : List.find? (fun p => p.1 == id) st with
  | some p => rfl
  | none =>
    have hnone : List.find? (fun p => p.1 == id') ([(id, [])] : Store) = none := by
      have : (id == id') = false := beq_eq_false_iff_ne.mpr (Ne.symm h)
      simp [List.find?, this]
    simp only [hist_of, List.find?_append, hnone]
    cases hf' : List.find? (fun p => p.1 == id') st <;> simp [hf']

/-- Error raised when a document cannot be parsed, named `IngestError`
in the design. -/
inductive IngestError where
  | ingest_error
  deriving DecidableEq, Repr

/-- The document-loading loop of `load_pdf_files`
(`streamlit_app.py:46-54`): for each uploaded file, `PyPDFLoader.load()`
parses it into documents which are appended to `all_documents`.  The
loop installs no per-file handler, so a parse failure propagates and
aborts the whole loop, discarding every document. -/
def load_all_documents (parse : String → Except IngestError (List String)) :
    List String → Except IngestError (List String)
  | [] => .ok []
  | f :: fs =>
    match parse f with
    | .error e => .error e
    | .ok docs =>
      match load_all_documents parse fs with
      | .error e => .error e
      | .ok rest => .ok (docs ++ rest)

/-- The configured chunk size passed to the text splitter
(`streamlit_app.py:56`). -/
def chunk_size : Nat := 1000

/-- The configured chunk overlap passed to the text splitter
(`streamlit_app.py:56`). -/
def chunk_overlap : Nat := 200

/-- Modelled from the spec: the text splitter itself
(`RecursiveCharacterTextSplitter`, third-party library code absent from
the repository) splits a document's text into fixed-size overlapping
chunks; each chunk takes at most `chunk_size` characters, and each
subsequent chunk restarts `chunk_size - chunk_overlap` characters later
so that consecutive chunks share `chunk_overlap` characters.  The
configuration constants are the repository's. -/
def split_text (t : List Char) : List (List Char) :=
  if t.length ≤ chunk_size then [t]
  else t.take chunk_size :: split_text (t.drop (chunk_size - chunk_overlap))
termination_by t.length
decreasing_by
  simp only [List.length_drop, chunk_size, chunk_overlap] at *
  omega

/-- Errors of the agent executor (model failure or iteration budget
exhaustion), named `AgentError` in the design. -/
inductive AgentErr where
  | agent_error
  deriving DecidableEq, Repr

/-- `chat_with_agent` (`streamlit_app.py:70-72`): invoke the agent
executor on the input and return its output.  No handler is installed,
so an executor failure propagates to the caller. -/
def chat_with_agent (agent_executor : String → Except AgentErr String)
    (user_input : String) : Except AgentErr String :=
  agent_executor user_input

/-- Python `str` of one history message rebuilt as a role/content dict
(`streamlit_app.py:163`). -/
def py_str_message (m : Message) : String :=
  "\x7b\x27role\x27: \x27" ++ m.role ++ "\x27, \x27content\x27: \x27" ++ m.content ++ "\x27\x7d"

/-- Python `str` of the rebuilt `prev_msgs` list (`streamlit_app.py:163-164`). -/
def py_str_messages (ms : List Message) : String :=
  "[" ++ String.intercalate ", " (ms.map py_str_message) ++ "]"

/-- The input handed to the agent executor (`streamlit_app.py:162-166`):
when the session history is non-empty, the stringified prior messages
are appended after the new user input; otherwise the user input alone. -/
def build_agent_input (history : List Message) (user_input : String) : String :=
  if history.isEmpty then user_input
  else user_input ++ "\n\nPrevious Messages: " ++ py_str_messages history

/-- One conversational turn of `main` (`streamlit_app.py:158-172`):
look up the fixed session id, fold the history into the agent input,
invoke the agent, and on success append the user message then the
assistant answer.  On agent failure the Python exception propagates
past the appends, so the store keeps only the lazily created entry. -/
def main_turn (agent_executor : String → Except AgentErr String)
    (st : Store) (user_input : String) : Except AgentErr String × Store :=
  let session_id := "default_session"
  let looked := get_session_history st session_id
  let input := build_agent_input looked.2 user_input
  match chat_with_agent agent_executor input with
  | .error e => (.error e, looked.1)
  | .ok response =>
    let st2 := add_message looked.1 session_id ⟨"user", user_input⟩
    let st3 := add_message st2 session_id ⟨"assistant", response⟩
    (.ok response, st3)

/-- A whole run of the program: successive turns starting from the
empty store created at `streamlit_app.py:97`, keeping the store whether
the turn succeeds or fails. -/
def run_turns (turns : List ((String → Except AgentErr String) × String))
    (st : Store) : Store :=
  turns.foldl (fun s t => (main_turn t.1 s t.2).2) st

/-- The session ids present in the store. -/
def store_keys (st : Store) : List String :=
  st.map (fun p => p.1)

theorem strContains_of_data (s t : String) (a b : List Char)
    (h : s.data = a ++ t.data ++ b) : strContains s t :=
  ⟨a, b, h.symm⟩

theorem hist_of_foldl_add (st : Store) (id : String) (msgs : List Message)
    (h : List Message) (hh : hist_of st id = some h) :
    hist_of (msgs.foldl (fun s m => add_message s id m) st) id = some (h ++ msgs) := by
  induction msgs generalizing st h with
  | nil => simpa using hh
  | cons m ms ih =>
    simp only [List.foldl_cons]
    have step : hist_of (add_message st id m) id = some (h ++ [m]) := by
      rw [hist_of_add_message, hh]
      rfl
    have := ih (add_message st id m) (h ++ [m]) step
    simpa [List.append_assoc] using this

theorem split_text_length_le (t : List Char) :
    ∀ c ∈ split_text t, c.length ≤ chunk_size := by
  rw [split_text]
  split
  case isTrue h =>
    intro c hc
    simp only [List.mem_singleton] at hc
    exact hc ▸ h
  case isFalse h =>
    intro c hc
    rcases List.mem_cons.mp hc with rfl | hc'
    · simp
    · exact split_text_length_le _ c hc'
termination_by t.length
decreasing_by
  simp only [List.length_drop, chunk_size, chunk_overlap] at *
  omega

theorem split_text_head_take_overlap (t : List Char) :
    ∃ hd tl, split_text t = hd :: tl ∧ hd.take chunk_overlap = t.take chunk_overlap := by
  rw [split_text]
  split
  · exact ⟨t, [], rfl, rfl⟩
  · refine ⟨t.take chunk_size, _, rfl, ?_⟩
    rw [List.take_take]
    norm_num [chunk_overlap, chunk_size]

theorem split_text_chain (t : List Char) :
    List.Chain' (fun c1 c2 => c1.drop (chunk_size - chunk_overlap) = c2.take chunk_overlap)
      (split_text t) := by
  rw [split_text]
  split
  case isTrue h => simp
  case isFalse h =>
    obtain ⟨hd, tl, heq, htake⟩ := split_text_head_take_overlap (t.drop (chunk_size - chunk_overlap))
    rw [heq, List.chain'_cons]
    constructor
    · rw [htake, List.drop_take]
      norm_num [chunk_size, chunk_overlap]
    · rw [← heq]
      exact split_text_chain _
termination_by t.length
decreasing_by
  simp only [List.length_drop, chunk_size, chunk_overlap] at *
  omega

theorem store_keys_add_message (st : Store) (id : String) (m : Message) :
    store_keys (add_message st id m) = store_keys st := by
  simp only [store_keys, add_message, List.map_map]
  congr 1
  funext p
  simp only [Function.comp]
  split <;> rfl

theorem store_keys_get_session_history (st : Store) (id : String) :
    ∀ k ∈ store_keys (get_session_history st id).1, k ∈ store_keys st ∨ k = id := by
  unfold get_session_history
  cases List.find? (fun p => p.1 == id) st with
  | some p => intro k hk; exact Or.inl hk
  | none =>
    intro k hk
    simp only [store_keys, List.map_append] at hk
    rcases List.mem_append.mp hk with h | h
    · exact Or.inl h
    · simp at h
      exact Or.inr h

theorem main_turn_error (agent : String → Except AgentErr String) (st : Store)
    (u : String) (e : AgentErr)
    (h : chat_with_agent agent
        (build_agent_input (get_session_history st "default_session").2 u) = .error e) :
    main_turn agent st u = (.error e, (get_session_history st "default_session").1) := by
  simp only [main_turn]
  rw [h]

theorem main_turn_ok (agent : String → Except AgentErr String) (st : Store)
    (u resp : String)
    (h : chat_with_agent agent
        (build_agent_input (get_session_history st "default_session").2 u) = .ok resp) :
    main_turn agent st u = (.ok resp,
      add_message
        (add_message (get_session_history st "default_session").1 "default_session"
          ⟨"user", u⟩)
        "default_session" ⟨"assistant", resp⟩) := by
  simp only [main_turn]
  rw [h]

theorem main_turn_keys (agent : String → Except AgentErr String) (st : Store)
    (u : String) :
    ∀ k ∈ store_keys (main_turn agent st u).2, k ∈ store_keys st ∨ k = "default_session" := by
  intro k hk
  cases h : chat_with_agent agent
      (build_agent_input (get_session_history st "default_session").2 u) with
  | error e =>
    rw [main_turn_error agent st u e h] at hk
    exact store_keys_get_session_history st "default_session" k hk
  | ok response =>
    rw [main_turn_ok agent st u response h] at hk
    simp only [store_keys_add_message] at hk
    exact store_keys_get_session_history st "default_session" k hk

theorem strContains_empty (s : String) : strContains s "" :=
  ⟨[], s.data, by simp⟩

theorem format_result_contains_title (r : SearchResult) :
    strContains (format_result r) (fstr r.title) := by
  unfold format_result
  split
  · exact strContains_of_eq _ "- [" (fstr r.title)
      ("](" ++ fstr r.link ++ ") (" ++ fstr r.source ++ ")\n  " ++ fstr r.snippet)
      (by simp [String.append_assoc])
  · exact strContains_of_eq _ "- " (fstr r.title)
      (" (출처: " ++ fstr r.source ++ ")\n  " ++ fstr r.snippet)
      (by simp [String.append_assoc])

theorem format_result_contains_source (r : SearchResult) :
    strContains (format_result r) (fstr r.source) := by
  unfold format_result
  split
  · exact strContains_of_eq _ ("- [" ++ fstr r.title ++ "](" ++ fstr r.link ++ ") (")
      (fstr r.source) (")\n  " ++ fstr r.snippet)
      (by simp [String.append_assoc])
  · exact strContains_of_eq _ ("- " ++ fstr r.title ++ " (출처: ")
      (fstr r.source) (")\n  " ++ fstr r.snippet)
      (by simp [String.append_assoc])

theorem format_result_contains_snippet (r : SearchResult) :
    strContains (format_result r) (fstr r.snippet) := by
  unfold format_result
  split
  · exact strContains_of_eq _
      ("- [" ++ fstr r.title ++ "](" ++ fstr r.link ++ ") (" ++ fstr r.source ++ ")\n  ")
      (fstr r.snippet) "" (by simp [String.append_assoc])
  · exact strContains_of_eq _
      ("- " ++ fstr r.title ++ " (출처: " ++ fstr r.source ++ ")\n  ")
      (fstr r.snippet) "" (by simp [String.append_assoc])

theorem format_result_contains_link (r : SearchResult) (l : String)
    (hl : r.link = some l) : strContains (format_result r) l := by
  unfold format_result
  split
  case isTrue ht =>
    have hfl : fstr r.link = l := by rw [hl]; rfl
    exact strContains_of_eq _ ("- [" ++ fstr r.title ++ "](") l
      (") (" ++ fstr r.source ++ ")\n  " ++ fstr r.snippet)
      (by rw [← hfl]; simp [String.append_assoc])
  case isFalse ht =>
    have hl0 : l = "" := by
      rw [hl] at ht
      simp only [truthy, Bool.not_eq_true', Bool.not_eq_false] at ht
      exact (String.isEmpty_iff l).mp ht
    subst hl0
    exact strContains_empty _

/-- C1: the web-search adapter takes at most the first 5 organic
results; each formatted line contains the renderings of `title`,
`source` and `snippet`, and of `link` whenever the link field is
present; the lines are joined with newlines; and for zero organic
results it returns the fixed non-empty sentinel
"검색 결과가 없습니다." instead of an empty string. -/
theorem C1_run_with_source_format (organic : List SearchResult) :
    (organic = [] → run_with_source organic = no_results_sentinel)
    ∧ no_results_sentinel ≠ ""
    ∧ (organic ≠ [] →
        run_with_source organic
          = String.intercalate "\n" ((organic.take 5).map format_result))
    ∧ (organic.take 5).length ≤ 5
    ∧ (∀ r : SearchResult,
        strContains (format_result r) (fstr r.title)
        ∧ strContains (format_result r) (fstr r.source)
        ∧ strContains (format_result r) (fstr r.snippet)
        ∧ ∀ l : String, r.link = some l → strContains (format_result r) l) := by
  refine ⟨?_, by decide, ?_, ?_, ?_⟩
  · rintro rfl
    rfl
  · intro h
    cases organic with
    | nil => exact absurd rfl h
    | cons a as => simp [run_with_source]
  · simp
  · intro r
    exact ⟨format_result_contains_title r, format_result_contains_source r,
      format_result_contains_snippet r, fun l hl => format_result_contains_link r l hl⟩

/-- C1 witness: the adapter evaluated on a concrete singleton result
list takes the nonempty branch and joins the single formatted line. -/
theorem C1_run_with_source_format_witness :
    ([(⟨some "T", some "u", some "S", some "Sn"⟩ : SearchResult)] ≠ [])
    ∧ run_with_source [(⟨some "T", some "u", some "S", some "Sn"⟩ : SearchResult)]
        = String.intercalate "\n"
            (([(⟨some "T", some "u", some "S", some "Sn"⟩ : SearchResult)].take 5).map format_result) :=
  ⟨by decide,
    (C1_run_with_source_format [⟨some "T", some "u", some "S", some "Sn"⟩]).2.2.1
      (by decide)⟩

/-- C10: an absent `title`, `source` or `snippet` field is rendered as
the literal text "None" (the line equals the one produced with the
field set to the string "None", and contains "None"); only the link
field's presence (Python truthiness) selects between the two line
formats. -/
theorem C10_absent_fields_render_none (r : SearchResult) :
    format_result { r with title := none } = format_result { r with title := some "None" }
    ∧ format_result { r with source := none } = format_result { r with source := some "None" }
    ∧ format_result { r with snippet := none } = format_result { r with snippet := some "None" }
    ∧ strContains (format_result { r with title := none }) "None"
    ∧ (truthy r.link = false →
        format_result r
          = "- " ++ fstr r.title ++ " (출처: " ++ fstr r.source ++ ")\n  " ++ fstr r.snippet)
    ∧ (truthy r.link = true →
        format_result r
          = "- [" ++ fstr r.title ++ "](" ++ fstr r.link ++ ") (" ++ fstr r.source
              ++ ")\n  " ++ fstr r.snippet) := by
  refine ⟨rfl, rfl, rfl, ?_, ?_, ?_⟩
  · exact format_result_contains_title { r with title := none }
  · intro h
    simp [format_result, h]
  · intro h
    simp [format_result, h]

/-- C10 witness: on a result with every field absent, the link-less
format is used and every missing field prints as "None". -/
theorem C10_absent_fields_render_none_witness :
    truthy (SearchResult.mk none none none none).link = false
    ∧ format_result ⟨none, none, none, none⟩ = "- None (출처: None)\n  None" :=
  ⟨rfl, by
    have h := (C10_absent_fields_render_none ⟨none, none, none, none⟩).2.2.2.2.1 rfl
    simpa [fstr] using h⟩

/-- C2: session memory preserves insertion order: for an unseen session
id the lookup lazily creates the session with an empty history, and
after appending N messages the history returned for that id is exactly
those N messages in call order. -/
theorem C2_session_memory_order (st : Store) (id : String) (msgs : List Message)
    (h : hist_of st id = none) :
    (get_session_history st id).2 = []
    ∧ hist_of (get_session_history st id).1 id = some []
    ∧ (get_session_history
        (msgs.foldl (fun s m => add_message s id m) (get_session_history st id).1)
        id).2 = msgs := by
  have hsnd : (get_session_history st id).2 = [] := by
    rw [get_session_history_snd, h]
    rfl
  have hcreated : hist_of (get_session_history st id).1 id = some [] := by
    rw [hist_of_get_session_history, hsnd]
  refine ⟨hsnd, hcreated, ?_⟩
  rw [get_session_history_snd,
    hist_of_foldl_add (get_session_history st id).1 id msgs [] hcreated]
  rfl

/-- C2 witness: starting from the empty store, two appends to session
"s1" yield exactly those two messages in order. -/
theorem C2_session_memory_order_witness :
    hist_of [] "s1" = none
    ∧ (get_session_history
        (([⟨"user", "a"⟩, ⟨"assistant", "b"⟩] : List Message).foldl
          (fun s m => add_message s "s1" m) (get_session_history [] "s1").1)
        "s1").2 = [⟨"user", "a"⟩, ⟨"assistant", "b"⟩] :=
  ⟨rfl, (C2_session_memory_order [] "s1" [⟨"user", "a"⟩, ⟨"assistant", "b"⟩] rfl).2.2⟩

/-- C3: on a successful turn the orchestrator returns the agent's final
answer and appends exactly the user message followed by the assistant
answer to the session's history; every other session is untouched. -/
theorem C3_success_appends_two_messages
    (agent : String → Except AgentErr String) (st : Store) (u resp : String)
    (h : chat_with_agent agent
        (build_agent_input (get_session_history st "default_session").2 u) = .ok resp) :
    (main_turn agent st u).1 = .ok resp
    ∧ hist_of (main_turn agent st u).2 "default_session"
        = some ((get_session_history st "default_session").2
            ++ [⟨"user", u⟩, ⟨"assistant", resp⟩])
    ∧ ∀ id, id ≠ "default_session" →
        hist_of (main_turn agent st u).2 id = hist_of st id := by
  rw [main_turn_ok agent st u resp h]
  refine ⟨rfl, ?_, ?_⟩
  · rw [hist_of_add_message, hist_of_add_message, hist_of_get_session_history]
    simp
  · intro id hid
    rw [hist_of_add_message_ne _ _ _ _ hid, hist_of_add_message_ne _ _ _ _ hid,
      hist_of_get_session_history_ne _ _ _ hid]

/-- C3 witness: a concrete successful turn on the empty store records
the user message then the answer, and leaves other sessions absent. -/
theorem C3_success_appends_two_messages_witness :
    chat_with_agent (fun _ => Except.ok "answer")
        (build_agent_input (get_session_history [] "default_session").2 "hi")
      = Except.ok "answer"
    ∧ hist_of (main_turn (fun _ => Except.ok "answer") [] "hi").2 "default_session"
        = some [⟨"user", "hi"⟩, ⟨"assistant", "answer"⟩] :=
  ⟨rfl, by
    have h := (C3_success_appends_two_messages
      (fun _ => Except.ok "answer") [] "hi" "answer" rfl).2.1
    simpa using h⟩

/-- C4 counterexample: with an always-failing agent the orchestrator
does not return a user-facing failure message; the raw error itself is
what comes out of the turn. -/
theorem C4_counterexample :
    (main_turn (fun _ => Except.error AgentErr.agent_error) [] "안녕").1
      = Except.error AgentErr.agent_error
    ∧ (main_turn (fun _ => Except.error AgentErr.agent_error) [] "안녕").1.isOk = false :=
  ⟨rfl, rfl⟩

/-- C4 amended: on an agent-loop failure the orchestrator appends
nothing — every session's history reads back unchanged, so the append
is atomic with turn completion — but the error propagates to the
caller unchanged instead of being converted to a user-facing failure
message. -/
theorem C4_amended_failure_appends_nothing
    (agent : String → Except AgentErr String) (st : Store) (u : String) (e : AgentErr)
    (h : chat_with_agent agent
        (build_agent_input (get_session_history st "default_session").2 u) = .error e) :
    (main_turn agent st u).1 = .error e
    ∧ ∀ id, (get_session_history (main_turn agent st u).2 id).2
        = (get_session_history st id).2 := by
  rw [main_turn_error agent st u e h]
  refine ⟨rfl, ?_⟩
  intro id
  by_cases hid : id = "default_session"
  · subst hid
    rw [get_session_history_snd, hist_of_get_session_history]
    rfl
  · rw [get_session_history_snd, get_session_history_snd,
      hist_of_get_session_history_ne _ _ _ hid]

/-- C4 witness: a concrete failing turn leaves the session history
empty and surfaces the error. -/
theorem C4_amended_failure_appends_nothing_witness :
    chat_with_agent (fun _ => Except.error AgentErr.agent_error)
        (build_agent_input (get_session_history [] "default_session").2 "질문")
      = Except.error AgentErr.agent_error
    ∧ (get_session_history
        (main_turn (fun _ => Except.error AgentErr.agent_error) [] "질문").2
        "default_session").2
      = (get_session_history [] "default_session").2 :=
  ⟨rfl,
    (C4_amended_failure_appends_nothing
      (fun _ => Except.error AgentErr.agent_error) [] "질문" AgentErr.agent_error
      rfl).2 "default_session"⟩

/-- A parser that fails on `bad.pdf` and parses any other file into one
page of text, exercising the loading loop's behaviour on a batch with
one corrupt document. -/
def bad_parse : String → Except IngestError (List String) :=
  fun f => if f = "bad.pdf" then .error .ingest_error else .ok ["good page"]

/-- C5 counterexample: with a batch whose first document fails to
parse, the loading loop aborts with the error and does not skip the
bad document to index the good one. -/
theorem C5_counterexample :
    load_all_documents bad_parse ["bad.pdf", "good.pdf"]
      = Except.error IngestError.ingest_error
    ∧ load_all_documents bad_parse ["bad.pdf", "good.pdf"]
      ≠ Except.ok ["good page"] := by
  constructor
  · rfl
  · simp [load_all_documents, bad_parse]

/-- C5 amended: a document that cannot be parsed makes the whole index
build fail — the loading loop installs no per-document guard, so any
parse failure in the batch aborts the build instead of skipping the
offending document and continuing. -/
theorem C5_amended_parse_failure_aborts_build
    (parse : String → Except IngestError (List String)) (files : List String)
    (f : String) (e : IngestError) (hmem : f ∈ files) (hf : parse f = .error e) :
    ∃ e', load_all_documents parse files = .error e' := by
  induction files with
  | nil => cases hmem
  | cons g gs ih =>
    rcases List.mem_cons.mp hmem with rfl | hmem'
    · exact ⟨e, by simp [load_all_documents, hf]⟩
    · cases hg : parse g with
      | error e2 => exact ⟨e2, by simp [load_all_documents, hg]⟩
      | ok docs =>
        obtain ⟨e', he'⟩ := ih hmem'
        exact ⟨e', by simp [load_all_documents, hg, he']⟩

/-- C5 witness: the amended theorem applied to the concrete failing
batch. -/
theorem C5_amended_parse_failure_aborts_build_witness :
    ("bad.pdf" ∈ (["good.pdf", "bad.pdf"] : List String))
    ∧ ∃ e', load_all_documents bad_parse ["good.pdf", "bad.pdf"] = .error e' :=
  ⟨by decide,
    C5_amended_parse_failure_aborts_build bad_parse ["good.pdf", "bad.pdf"]
      "bad.pdf" IngestError.ingest_error (by decide) rfl⟩

/-- C6 (splitter modelled from the spec, configuration from the code):
every chunk produced from a document's text has length at most
`chunk_size` = 1000, consecutive chunks share exactly the configured
`chunk_overlap` = 200 characters (the last 200 of one chunk are the
first 200 of the next), and the configuration satisfies
`chunk_overlap < chunk_size`. -/
theorem C6_chunking_invariants (t : List Char) :
    chunk_overlap < chunk_size
    ∧ (∀ c ∈ split_text t, c.length ≤ chunk_size)
    ∧ List.Chain'
        (fun c1 c2 => c1.drop (chunk_size - chunk_overlap) = c2.take chunk_overlap)
        (split_text t) :=
  ⟨by decide, split_text_length_le t, split_text_chain t⟩

/-- C6 witness: on a short concrete text the splitter yields one chunk
within the length bound. -/
theorem C6_chunking_invariants_witness :
    "ab".data ∈ split_text "ab".data ∧ "ab".data.length ≤ chunk_size := by
  have hmem : "ab".data ∈ split_text "ab".data := by
    rw [split_text]
    norm_num [chunk_size]
  exact ⟨hmem, (C6_chunking_invariants "ab".data).2.1 "ab".data hmem⟩

/-- C7 counterexample: when the provider raises `SearchError`, the
web-search adapter does not catch it and produce a tool-failure
observation string; the invocation yields the raw error. -/
theorem C7_counterexample :
    run_with_source_fallible (fun _ => Except.error SearchError.search_error)
        "최신 다이어트 뉴스"
      = Except.error SearchError.search_error
    ∧ (run_with_source_fallible (fun _ => Except.error SearchError.search_error)
        "최신 다이어트 뉴스").isOk = false :=
  ⟨rfl, rfl⟩

/-- C7 amended: a provider `SearchError` propagates unchanged out of
the web-search adapter (no handler converts it to an observation), and
the orchestrator likewise propagates an agent-loop failure, so the
turn ends in the propagated error rather than completing with a final
answer. -/
theorem C7_amended_search_error_propagates :
    (∀ (provider : String → Except SearchError (List SearchResult)) (q : String)
        (e : SearchError), provider q = .error e →
          run_with_source_fallible provider q = .error e)
    ∧ (∀ (agent : String → Except AgentErr String) (st : Store) (u : String)
        (e : AgentErr),
        chat_with_agent agent
            (build_agent_input (get_session_history st "default_session").2 u)
          = .error e →
        (main_turn agent st u).1 = .error e) := by
  constructor
  · intro provider q e h
    simp [run_with_source_fallible, h]
  · intro agent st u e h
    rw [main_turn_error agent st u e h]

/-- C7 witness: the amended theorem applied to a concrete failing
provider and a concrete failing agent. -/
theorem C7_amended_search_error_propagates_witness :
    run_with_source_fallible (fun _ => Except.error SearchError.search_error) "뉴스"
      = Except.error SearchError.search_error
    ∧ (main_turn (fun _ => Except.error AgentErr.agent_error) [] "뉴스").1
      = Except.error AgentErr.agent_error :=
  ⟨C7_amended_search_error_propagates.1 (fun _ => Except.error SearchError.search_error)
      "뉴스" SearchError.search_error rfl,
    C7_amended_search_error_propagates.2 (fun _ => Except.error AgentErr.agent_error)
      [] "뉴스" AgentErr.agent_error rfl⟩

/-- C8: the input handed to the agent loop is exactly the user message
when the session history is empty, and the user message followed by
the stringified full prior history when it is non-empty; the turn's
result is the agent applied to that folded input. -/
theorem C8_history_folding (agent : String → Except AgentErr String) (st : Store)
    (history : List Message) (u : String) :
    (history = [] → build_agent_input history u = u)
    ∧ (history ≠ [] →
        build_agent_input history u
          = u ++ "\n\nPrevious Messages: " ++ py_str_messages history)
    ∧ (main_turn agent st u).1
        = chat_with_agent agent
            (build_agent_input (get_session_history st "default_session").2 u) := by
  refine ⟨?_, ?_, ?_⟩
  · rintro rfl
    rfl
  · intro h
    simp [build_agent_input, h]
  · cases h : chat_with_agent agent
        (build_agent_input (get_session_history st "default_session").2 u) with
    | error e => rw [main_turn_error agent st u e h]
    | ok resp => rw [main_turn_ok agent st u resp h]

/-- C8 witness: with a one-message history the folded input is the
user message followed by the stringified history. -/
theorem C8_history_folding_witness :
    ([(⟨"user", "hi"⟩ : Message)] ≠ [])
    ∧ build_agent_input [⟨"user", "hi"⟩] "new q"
        = "new q" ++ "\n\nPrevious Messages: "
            ++ py_str_messages [⟨"user", "hi"⟩] :=
  ⟨by decide,
    (C8_history_folding (fun _ => Except.ok "x") [] [⟨"user", "hi"⟩] "new q").2.1
      (by decide)⟩

theorem run_turns_keys
    (turns : List ((String → Except AgentErr String) × String)) :
    ∀ st : Store, (∀ k' ∈ store_keys st, k' = "default_session") →
      ∀ k' ∈ store_keys (run_turns turns st), k' = "default_session" := by
  induction turns with
  | nil => intro st hst k' hk'; exact hst k' hk'
  | cons tr trs ih =>
    intro st hst k' hk'
    refine ih (main_turn tr.1 st tr.2).2 ?_ k' hk'
    intro k'' hk''
    rcases main_turn_keys tr.1 st tr.2 k'' hk'' with h | h
    · exact hst k'' h
    · exact h

/-- C9: every turn uses the single constant session id
"default_session", so starting from the empty store any sequence of
turns (successful or failed) leaves a store whose only key is
"default_session". -/
theorem C9_single_session_key
    (turns : List ((String → Except AgentErr String) × String)) (k : String)
    (hk : k ∈ store_keys (run_turns turns [])) : k = "default_session" :=
  run_turns_keys turns []
    (fun k' hk' => absurd hk' (by simp [store_keys])) k hk

/-- C9 witness: after one concrete successful turn the store's only
key is "default_session". -/
theorem C9_single_session_key_witness :
    "default_session"
        ∈ store_keys (run_turns [(fun _ => Except.ok "네!", "안녕")] [])
    ∧ "default_session" = "default_session" :=
  ⟨by decide,
    C9_single_session_key [(fun _ => Except.ok "네!", "안녕")] "default_session"
      (by decide)⟩

end ChatbotApp
